import Mathlib

/-!
Verification of the PeekingDuck `draw.instance_mask` node
(`peekingduck/pipeline/nodes/draw/instance_mask.py`) and of the
runner / data-flow contract exercised by `tests/runner/test_runner.py`.

Conventions of the shallow embedding:
* Python dynamic values appearing in the node's configuration are modelled
  by `PyVal`; configuration dictionaries are insertion-ordered association
  lists, matching Python `dict` iteration order.
* Images are functions from (row, column) to a BGR triple of naturals;
  masks are functions from (row, column) to a natural (`0`/`1` for binary
  masks).  OpenCV primitives (`bitwise_and` with a mask, saturating `add`,
  `convertScaleAbs`) are modelled pointwise with exact integer/rational
  arithmetic.
* Python `float` arithmetic is modelled by exact rationals.  All concrete
  values appearing in theorems below were chosen so that the exact value
  coincides with the IEEE-double value computed by the source (the
  additive saturation-stepping arithmetic on values in [0, 256) is exact
  in doubles; lossy conversion round-trips are never relied upon for a
  general statement).
* `random.randint` draws are modelled by an explicit stream of naturals
  (`Rng`); no theorem depends on the drawn values.
* Python exceptions that the modelled code can raise are the explicit
  error outcomes of `PErr`.
-/

/-- A dynamically typed Python value, as found in the node's config. -/
inductive PyVal where
  | none : PyVal
  | bool (b : Bool) : PyVal
  | int (n : Int) : PyVal
  | float (q : ℚ) : PyVal
  | str (s : String) : PyVal
deriving DecidableEq, Repr

/-- Python truthiness of a `PyVal` (`bool(v)`). -/
def PyVal.truthy : PyVal → Bool
  | .none => false
  | .bool b => b
  | .int n => n != 0
  | .float q => q != 0
  | .str s => s ≠ ""

/-- `v is None`. -/
def PyVal.isNone : PyVal → Bool
  | .none => true
  | _ => false

/-- `isinstance(v, float)` — Python `int`/`bool` are not `float`. -/
def PyVal.isFloat : PyVal → Bool
  | .float _ => true
  | _ => false

/-- `isinstance(v, int)` — Python `bool` is a subclass of `int`. -/
def PyVal.isInt : PyVal → Bool
  | .int _ => true
  | .bool _ => true
  | _ => false

/-- `isinstance(v, bool)`. -/
def PyVal.isBool : PyVal → Bool
  | .bool _ => true
  | _ => false

/-- The numeric value of a `PyVal`, as used by Python comparison and
arithmetic once the type checks have passed (`True` counts as `1`). -/
def PyVal.toQ : PyVal → ℚ
  | .int n => (n : ℚ)
  | .float q => q
  | .bool b => if b then 1 else 0
  | _ => 0

/-- The configuration of the `draw.instance_mask` node.  The `effect`
entry is an insertion-ordered dictionary, exactly as iterated by
`Node.run` and `Node._validate_configs`. -/
structure Config where
  instance_color_scheme : String
  effect : List (String × PyVal)
  effect_area : String
  contours_show : PyVal
  contours_thickness : PyVal
deriving DecidableEq, Repr

/-- Dictionary lookup, `d[k]`; `Option.none` models a `KeyError`. -/
def dictGet (d : List (String × PyVal)) (k : String) : Option PyVal :=
  (d.find? (fun p => p.1 = k)).map (fun p => p.2)

/-- The recognized effect names (`effects` in `Node._validate_configs`). -/
def recognizedEffects : List String :=
  ["standard_mask", "contrast", "brightness", "gamma_correction", "blur", "mosaic"]

/-- `Node._check_type`: passes when the value is `None` or has the
required Python type. -/
def check_type (v : PyVal) (isa : PyVal → Bool) : Bool :=
  v.isNone || isa v

/-- `Node._check_number_range` with range string `"[lo, hi]"`; `hi = none`
models `+inf`.  Only reached after the corresponding type check, so the
value is numeric or `None`. -/
def check_number_range (v : PyVal) (lo : ℚ) (hi : Option ℚ) : Bool :=
  v.isNone ||
    (decide (lo ≤ v.toQ) && (match hi with
      | Option.none => true
      | Option.some h => decide (v.toQ ≤ h)))

/-- `ThresholdCheckerMixin.check_valid_choice`.  Modelled from the spec:
the mixin (`peekingduck/pipeline/nodes/base.py`) is not part of the
sources; per the spec it raises a `ConfigurationError` when the configured
value is outside the enumerated set of choices. -/
def check_valid_choice (v : String) (choices : List String) : Bool :=
  choices.contains v

/-- `Node._validate_configs`.  `Option.none` models a crash that is not a
`ValueError` (a `KeyError` from a missing effect key); `some false` means
a `ValueError` is raised; `some true` means validation passes.  The
checks appear in source order; the numeric checks are conjoined since any
failing one raises. -/
def validate_configs (cfg : Config) : Option Bool :=
  if !check_valid_choice cfg.instance_color_scheme ["random", "hue_family"] then
    some false
  else if !cfg.effect.all (fun p => recognizedEffects.contains p.1) then
    some false
  else if (cfg.effect.filter (fun p => p.2.truthy)).length ≠ 1 then
    some false
  else if !check_valid_choice cfg.effect_area ["objects", "background"] then
    some false
  else
    match dictGet cfg.effect "contrast", dictGet cfg.effect "brightness",
        dictGet cfg.effect "gamma_correction", dictGet cfg.effect "blur",
        dictGet cfg.effect "mosaic" with
    | some vc, some vb, some vg, some vbl, some vm =>
        some (check_type vc PyVal.isFloat && check_number_range vc 0 (some 3) &&
          check_type vb PyVal.isInt && check_number_range vb (-100) (some 100) &&
          check_type vg PyVal.isFloat && check_number_range vg 0 Option.none &&
          check_type vbl PyVal.isInt && check_number_range vbl 1 Option.none &&
          check_type vm PyVal.isInt && check_number_range vm 1 Option.none &&
          check_type cfg.contours_show PyVal.isBool &&
          check_type cfg.contours_thickness PyVal.isInt &&
          check_number_range cfg.contours_thickness 1 Option.none)
    | _, _, _, _, _ => Option.none

/-- The branch selected by the dispatch loop in `Node.run`: skip `None`
values; take `standard_mask` only when truthy; take any other non-`None`
entry; `Option.none` means the loop falls through (and `output_img` is
unbound, a `NameError`). -/
inductive RunAction where
  | standardMask : RunAction
  | applyEffect (name : String) : RunAction
deriving DecidableEq, Repr

/-- The `for effect in self.config["effect"]` loop of `Node.run`,
including both `break` statements. -/
def selectAction : List (String × PyVal) → Option RunAction
  | [] => Option.none
  | (k, v) :: rest =>
      if v.isNone then selectAction rest
      else if k = "standard_mask" then
        if v.truthy then some RunAction.standardMask else selectAction rest
      else some (RunAction.applyEffect k)

/-- A BGR pixel: channel values as naturals (`uint8` in range `[0, 255]`). -/
abbrev Pix := ℕ × ℕ × ℕ

/-- An image: rows × columns of BGR pixels. -/
abbrev Img := ℕ → ℕ → Pix

/-- A mask: rows × columns of `uint8` values (`0`/`1` when binary). -/
abbrev Mask := ℕ → ℕ → ℕ

/-- Apply a function to every channel of a pixel. -/
def pixMap (f : ℕ → ℕ) (p : Pix) : Pix := (f p.1, f p.2.1, f p.2.2)

/-- Combine two pixels channelwise. -/
def pixZip (f : ℕ → ℕ → ℕ) (p q : Pix) : Pix :=
  (f p.1 q.1, f p.2.1 q.2.1, f p.2.2 q.2.2)

/-- `cv2.add`: per-channel saturating addition. -/
def cvAdd (a b : Img) : Img := fun y x => pixZip (fun u v => min 255 (u + v)) (a y x) (b y x)

/-- `cv2.bitwise_and(src, src, mask=m)`: keep the source pixel where the
mask is non-zero, zero elsewhere. -/
def bitwiseAndMask (src : Img) (m : Mask) : Img :=
  fun y x => if m y x ≠ 0 then src y x else (0, 0, 0)

/-- `1 - mask` on a `uint8` array (wraps modulo 256; on a binary mask this
swaps `0` and `1`). -/
def maskInvFn (m : Mask) : Mask :=
  fun y x => (((1 : ℤ) - (m y x : ℤ)) % 256).toNat

/-- The constant image `full_sized_canvas[:, :] = color`. -/
def constImg (c : Pix) : Img := fun _ _ => c

/-- Rounding used by OpenCV (`cvRound`): round half to even. -/
def cvRound (q : ℚ) : ℤ :=
  let f := ⌊q⌋
  let r := q - f
  if r < 1/2 then f else if 1/2 < r then f + 1 else if f % 2 = 0 then f else f + 1

/-- `saturate_cast<uchar>`: round, then clamp into `[0, 255]`. -/
def saturateCastU8 (q : ℚ) : ℕ := (min 255 (max 0 (cvRound q))).toNat

/-- `cv2.convertScaleAbs(image, alpha, beta)`: per channel
`saturate_cast<uchar>(|v * alpha + beta|)`. -/
def convertScaleAbs (alpha beta : ℚ) (img : Img) : Img :=
  fun y x => pixMap (fun v => saturateCastU8 |(v : ℚ) * alpha + beta|) (img y x)

/-- Union of the per-instance masks (`np.putmask(combined_masks, mask, 1)`
folded over `masks`, starting from zeros). -/
def combinedMask (masks : List Mask) : Mask :=
  fun y x => masks.foldl (fun acc m => if m y x ≠ 0 then 1 else acc) 0

/-- Exceptions the modelled code can raise. -/
inductive PErr where
  | typeError : PErr
  | nameError : PErr
deriving DecidableEq, Repr

/-- Python `%` with a positive modulus on rationals (result in `[0, n)`). -/
def qmod (a n : ℚ) : ℚ := a - n * ⌊a / n⌋

/-- `colorsys.rgb_to_hsv` on exact rationals. -/
def rgb_to_hsv (r g b : ℚ) : ℚ × ℚ × ℚ :=
  let maxc := max r (max g b)
  let minc := min r (min g b)
  let v := maxc
  if minc = maxc then (0, 0, v)
  else
    let rangec := maxc - minc
    let s := rangec / maxc
    let rc := (maxc - r) / rangec
    let gc := (maxc - g) / rangec
    let bc := (maxc - b) / rangec
    let h0 := if r = maxc then bc - gc
      else if g = maxc then 2 + rc - bc
      else 4 + gc - rc
    (qmod (h0 / 6) 1, s, v)

/-- `colorsys.hsv_to_rgb` on exact rationals (`int(h*6.0)` is truncation;
all uses have `h ≥ 0`, where truncation is `⌊·⌋`). -/
def hsv_to_rgb (h s v : ℚ) : ℚ × ℚ × ℚ :=
  if s = 0 then (v, v, v)
  else
    let i0 : ℤ := ⌊h * 6⌋
    let f := h * 6 - (i0 : ℚ)
    let p := v * (1 - s)
    let q := v * (1 - s * f)
    let t := v * (1 - s * (1 - f))
    match (i0 % 6).toNat with
    | 0 => (v, t, p)
    | 1 => (q, v, p)
    | 2 => (p, v, t)
    | 3 => (p, q, v)
    | 4 => (t, p, v)
    | _ => (v, p, q)

/-- `Node._bgr_to_hsv`: hue quantized into `[0, 127]`, saturation and
value into `[0, 255]` (`int(...)` truncation on non-negative values). -/
def bgr_to_hsv (c : Pix) : ℕ × ℕ × ℕ :=
  let hsv := rgb_to_hsv ((c.2.2 : ℚ) / 255) ((c.2.1 : ℚ) / 255) ((c.1 : ℚ) / 255)
  ((⌊hsv.1 * 127⌋).toNat, (⌊hsv.2.1 * 255⌋).toNat, (⌊hsv.2.2 * 255⌋).toNat)

/-- `Node._hsv_to_bgr`: channels back to `[0, 255]` and reversed to BGR. -/
def hsv_to_bgr (c : ℕ × ℕ × ℕ) : Pix :=
  let rgb := hsv_to_rgb ((c.1 : ℚ) / 127) ((c.2.1 : ℚ) / 255) ((c.2.2 : ℚ) / 255)
  ((⌊rgb.2.2 * 255⌋).toNat, (⌊rgb.2.1 * 255⌋).toNat, (⌊rgb.1 * 255⌋).toNat)

/-- `SATURATION_MINIMUM`.  Modelled from the spec: the constants module
`draw/utils/constants.py` is not in the sources; the spec fixes the
minimum saturation at 100. -/
def SATURATION_MINIMUM : ℕ := 100

/-- `SATURATION_STEPS`.  Modelled from the spec: 8 shades per hue, step
`(256 - 100) / 8`. -/
def SATURATION_STEPS : ℕ := 8

/-- The saturation update of `Node._get_new_instance_color` before the
final `int(...)`: `(s + (256 - 100) / 8) % 256`, then `+ 100` when the
result is below the minimum.  Exact in IEEE doubles for `s ∈ [0, 255]`. -/
def satStep (s : ℕ) : ℚ :=
  let saturation := qmod ((s : ℚ) + ((256 : ℚ) - SATURATION_MINIMUM) / SATURATION_STEPS) 256
  if saturation < (SATURATION_MINIMUM : ℚ) then saturation + SATURATION_MINIMUM
  else saturation

/-- The integer saturation stored in the new HSV triple (`int(saturation)`,
truncation on a non-negative value). -/
def satStepInt (s : ℕ) : ℕ := (⌊satStep s⌋).toNat

/-- Module-level constants of the node that live in the absent
`draw/utils/constants.py`, plus the library transforms whose pixel output
no claim depends on.  Modelled from the spec: `ALPHA` is the fixed blend
weight; `CLASS_COLORS`/`DEFAULT_CLASS_COLOR` form the fixed label → color
preset table; `floatFx` stands for the floating-point OpenCV transforms
(`gamma_correction` LUT, `cv2.blur`, `cv2.resize` mosaic, contour
stroking) applied to a whole image. -/
structure Env where
  alpha : ℚ
  classColors : List (String × Pix)
  defaultClassColor : Pix
  floatFx : String → Img → Img

/-- Stream of `random.randint` draws (the global `random` generator made
explicit).  Each draw consumes one element, clamped into `[lo, hi]`. -/
abbrev Rng := List ℕ

/-- One `randint(lo, hi)` draw from the stream. -/
def randintDraw (rng : Rng) (lo hi : ℕ) : ℕ × Rng :=
  (min hi (max lo (rng.headD lo)), rng.tail)

/-- Per-label assigned colors, `self.class_instance_colors`. -/
abbrev ColorsMap := List (String × List Pix)

/-- Per-call instance counts, `self.class_instance_counts`. -/
abbrev CountsMap := List (String × ℕ)

/-- Update (or append) a key in an association list, preserving the
position of an existing key — Python `dict` assignment. -/
def updAssoc {α : Type} (m : List (String × α)) (k : String) (v : α) :
    List (String × α) :=
  if (m.lookup k).isSome then
    m.map (fun p => if p.1 = k then (k, v) else p)
  else m ++ [(k, v)]

/-- `Node._get_new_instance_color`.  The `else` branch (an unrecognized
scheme) leaves Python's local `color` unbound: `NameError`. -/
def get_new_instance_color (env : Env) (cfg : Config) (colors : ColorsMap)
    (label : String) (rng : Rng) : Except PErr (Pix × Rng) :=
  if cfg.instance_color_scheme = "random" then
    let d1 := randintDraw rng 0 179
    let d2 := randintDraw d1.2 100 255
    .ok (hsv_to_bgr (d1.1, d2.1, 255), d2.2)
  else if cfg.instance_color_scheme = "hue_family" then
    if (colors.lookup label).getD [] = [] then
      .ok (((env.classColors.lookup label).getD env.defaultClassColor), rng)
    else
      let c := ((colors.lookup label).getD []).getLastD (0, 0, 0)
      let hsv := bgr_to_hsv c
      .ok (hsv_to_bgr (hsv.1, satStepInt hsv.2.1, hsv.2.2), rng)
  else .error PErr.nameError

/-- `Node._get_instance_color`: bump the per-call count for the label,
reuse the already assigned color of that instance ordinal when it exists,
otherwise assign (and record) a fresh color. -/
def get_instance_color (env : Env) (cfg : Config) (counts : CountsMap)
    (colors : ColorsMap) (rng : Rng) (label : String) :
    Except PErr (Pix × CountsMap × ColorsMap × Rng) :=
  let cnt := (counts.lookup label).getD 0 + 1
  let counts1 := updAssoc counts label cnt
  let lst := (colors.lookup label).getD []
  let colors0 := if (colors.lookup label).isSome then colors
    else colors ++ [(label, ([] : List Pix))]
  if cnt > lst.length then
    match get_new_instance_color env cfg colors0 label rng with
    | .error e => .error e
    | .ok (c, rng1) => .ok (c, counts1, updAssoc colors0 label (lst ++ [c]), rng1)
  else
    .ok (lst.getD (cnt - 1) (0, 0, 0), counts1, colors0, rng)

/-- One iteration of the painting loop in `Node._draw_standard_masks`:
color the instance's mask, alpha-blend it onto the original image's
masked area, splice the blend into the running output; with contours
enabled the per-mask contour helper is then invoked with four positional
arguments against a three-parameter definition — a `TypeError`. -/
def paintStep (env : Env) (cfg : Config) (image : Img) (masks : List Mask)
    (labels : List String) (st : Img × CountsMap × ColorsMap × Rng) (i : ℕ) :
    Except PErr (Img × CountsMap × ColorsMap × Rng) :=
  match get_instance_color env cfg st.2.1 st.2.2.1 st.2.2.2 (labels.getD i "") with
  | .error e => .error e
  | .ok (color, counts1, colors1, rng1) =>
      let mask := masks.getD i (fun _ _ => 0)
      let coloured_seg_mask := bitwiseAndMask (constImg color) mask
      let masked_area := bitwiseAndMask image mask
      let masked_area_colored := fun y x =>
        pixZip (fun u v =>
            saturateCastU8 ((u : ℚ) * env.alpha + (v : ℚ) * (1 - env.alpha)))
          (coloured_seg_mask y x) (masked_area y x)
      let ret1 := bitwiseAndMask st.1 (maskInvFn mask)
      let ret2 := cvAdd ret1 masked_area_colored
      if cfg.contours_show.truthy then .error PErr.typeError
      else .ok (ret2, counts1, colors1, rng1)

/-- The painting loop over the score-sorted `(score, index)` pairs. -/
def paintLoop (env : Env) (cfg : Config) (image : Img) (masks : List Mask)
    (labels : List String) :
    Img × CountsMap × ColorsMap × Rng → List (ℚ × ℕ) →
    Except PErr (Img × CountsMap × ColorsMap × Rng)
  | st, [] => .ok st
  | st, (_, i) :: rest =>
      match paintStep env cfg image masks labels st i with
      | .error e => .error e
      | .ok st1 => paintLoop env cfg image masks labels st1 rest

/-- `scores_with_indexes`: the `(score, index)` pairs of `enumerate`. -/
def scoresWithIndexes (scores : List ℚ) : List (ℚ × ℕ) :=
  (List.range scores.length).map (fun i => (scores.getD i 0, i))

/-- Ascending comparison on the score component, the key of the stable
`list.sort(key=lambda x: x[0])`. -/
def scoreLE (a b : ℚ × ℕ) : Prop := a.1 ≤ b.1

instance : DecidableRel scoreLE := fun a b => inferInstanceAs (Decidable (a.1 ≤ b.1))

instance : IsTotal (ℚ × ℕ) scoreLE := ⟨fun a b => le_total a.1 b.1⟩

instance : IsTrans (ℚ × ℕ) scoreLE := ⟨fun _ _ _ h1 h2 => le_trans h1 h2⟩

/-- `Node._draw_standard_masks`: reset the per-call counts, sort the
instance indices by ascending confidence score with a stable sort, and
paint them in that order over a copy-on-write running image. -/
def draw_standard_masks (env : Env) (cfg : Config) (colors : ColorsMap)
    (rng : Rng) (image : Img) (masks : List Mask) (labels : List String)
    (scores : List ℚ) : Except PErr (Img × ColorsMap × Rng) :=
  let sorted := List.insertionSort scoreLE (scoresWithIndexes scores)
  match paintLoop env cfg image masks labels (image, [], colors, rng) sorted with
  | .error e => .error e
  | .ok (ret, _, colors1, rng1) => .ok (ret, colors1, rng1)

/-- `full_image_with_effect` in `Node._mask_apply_effect`: contrast and
brightness via `cv2.convertScaleAbs` (contrast: `alpha` = configured
factor, `beta = 0`; brightness: `alpha = 1`, `beta` = configured offset);
the remaining effects are floating-point library transforms taken from
`Env.floatFx`; an unmatched name leaves the local unbound (`NameError`). -/
def fullImageWithEffect (env : Env) (cfg : Config) (effect : String)
    (image : Img) : Option Img :=
  if effect = "contrast" then
    some (convertScaleAbs ((dictGet cfg.effect "contrast").getD PyVal.none).toQ 0 image)
  else if effect = "brightness" then
    some (convertScaleAbs 1 ((dictGet cfg.effect "brightness").getD PyVal.none).toQ image)
  else if effect = "gamma_correction" then some (env.floatFx "gamma_correction" image)
  else if effect = "blur" then some (env.floatFx "blur" image)
  else if effect = "mosaic" then some (env.floatFx "mosaic" image)
  else Option.none

/-- `Node._mask_apply_effect`: union the masks, pick the effect area
(`objects` = union, otherwise its complement), transform the whole image,
keep the transformed pixels inside the area and the original pixels
outside it, then optionally stroke all contours (a floating-point library
call, from `Env.floatFx`). -/
def mask_apply_effect (env : Env) (cfg : Config) (effect : String)
    (image : Img) (masks : List Mask) : Except PErr Img :=
  let combined := combinedMask masks
  let effect_area := if cfg.effect_area = "objects" then combined else maskInvFn combined
  match fullImageWithEffect env cfg effect image with
  | Option.none => .error PErr.nameError
  | some full_image_with_effect =>
      let effect_area_with_effect := bitwiseAndMask full_image_with_effect effect_area
      let image_empty_effect_area := bitwiseAndMask image (maskInvFn effect_area)
      let ret := cvAdd image_empty_effect_area effect_area_with_effect
      .ok (if cfg.contours_show.truthy then env.floatFx "contours" ret else ret)

/-- `Node.run`: dispatch on the first applicable configured effect and
return the `{"img": output_img}` pool. -/
def node_run (env : Env) (cfg : Config) (colors : ColorsMap) (rng : Rng)
    (img : Img) (masks : List Mask) (labels : List String) (scores : List ℚ) :
    Except PErr (List (String × Img) × ColorsMap × Rng) :=
  match selectAction cfg.effect with
  | Option.none => .error PErr.nameError
  | some RunAction.standardMask =>
      match draw_standard_masks env cfg colors rng img masks labels scores with
      | .error e => .error e
      | .ok (out, colors1, rng1) => .ok ([("img", out)], colors1, rng1)
  | some (RunAction.applyEffect e) =>
      match mask_apply_effect env cfg e img masks with
      | .error er => .error er
      | .ok out => .ok ([("img", out)], colors, rng)

/-- A pipeline node of the runner scenario: declared input and output
keys.  Modelled from the spec: the `Runner`/`Pipeline` classes are not in
the sources (only `tests/runner/test_runner.py` is); per the spec the
runner invokes each node in declared order, threading a shared keyed data
pool, until the sentinel key `pipeline_end` is present and truthy. -/
structure SimNode where
  inputs : List String
  outputs : List String

/-- The shared data pool: key → value. -/
abbrev Pool := String → Option String

/-- `MockedNode.run` of the runner test: output key at position `idx`
maps to the string `"test_output_idx"`. -/
def mockedRun (n : SimNode) : List (String × String) :=
  (List.range n.outputs.length).map
    (fun i => (n.outputs.getD i "", "test_output_" ++ toString i))

/-- Merge a node's outputs into the pool (`dict.update`). -/
def poolUpdate (pool : Pool) (kvs : List (String × String)) : Pool :=
  kvs.foldl (fun p kv => fun k => if k = kv.1 then some kv.2 else p k) pool

/-- One pipeline step: every node runs once in declared order.  Modelled
from the spec (runner not in sources). -/
def runOnce (nodes : List SimNode) (pool : Pool) : Pool :=
  nodes.foldl (fun p n => poolUpdate p (mockedRun n)) pool

/-- Sentinel check: `pipeline_end` present and truthy (non-empty string).
Modelled from the spec (runner not in sources). -/
def sentinelTruthy (pool : Pool) : Bool :=
  match pool "pipeline_end" with
  | some s => s ≠ ""
  | Option.none => false

/-- The runner loop, fuel-indexed: step, then stop once the sentinel is
present and truthy; the Bool records termination.  Modelled from the spec
(runner not in sources). -/
def runnerLoop (nodes : List SimNode) : ℕ → Pool → Pool × Bool
  | 0, pool => (pool, false)
  | fuel + 1, pool =>
      let pool1 := runOnce nodes pool
      if sentinelTruthy pool1 then (pool1, true) else runnerLoop nodes fuel pool1

/-- The first test node: `input: ["none"], output: ["test_output_1"]`. -/
def testInputNode : SimNode := ⟨["none"], ["test_output_1"]⟩

/-- The second test node:
`input: ["test_output_1"], output: ["test_output_2", "pipeline_end"]`. -/
def testNodeEnd : SimNode := ⟨["test_output_1"], ["test_output_2", "pipeline_end"]⟩

/-- The empty data pool. -/
def emptyPool : Pool := fun _ => Option.none

/-- A concrete environment for closed theorems: blend weight 1/2, a
one-entry preset table, identity in place of the floating-point library
transforms (their pixel output is never relied upon). -/
def env0 : Env :=
  { alpha := 1/2
    classColors := [("car", (0, 0, 255))]
    defaultClassColor := (204, 204, 204)
    floatFx := fun _ img => img }

/-- A validated configuration drawing standard masks with contours
enabled. -/
def cfgContours : Config :=
  { instance_color_scheme := "hue_family"
    effect := [("standard_mask", PyVal.bool true), ("contrast", PyVal.none),
      ("brightness", PyVal.none), ("gamma_correction", PyVal.none),
      ("blur", PyVal.none), ("mosaic", PyVal.none)]
    effect_area := "objects"
    contours_show := PyVal.bool true
    contours_thickness := PyVal.int 3 }

/-- A validated configuration drawing standard masks without contours. -/
def cfgStandard : Config :=
  { cfgContours with contours_show := PyVal.bool false }

/-- The all-black image. -/
def blackImg : Img := fun _ _ => (0, 0, 0)

/-- A full-frame binary mask. -/
def fullMask : Mask := fun _ _ => 1

/-- `Node._get_new_instance_color` cannot raise under a validated scheme. -/
lemma get_new_instance_color_isOk (env : Env) (cfg : Config) (colors : ColorsMap)
    (label : String) (rng : Rng)
    (h : cfg.instance_color_scheme = "random" ∨ cfg.instance_color_scheme = "hue_family") :
    ∃ c rng1, get_new_instance_color env cfg colors label rng = .ok (c, rng1) := by
  rcases h with h | h
  · unfold get_new_instance_color
    rw [h, if_pos rfl]
    exact ⟨_, _, rfl⟩
  · unfold get_new_instance_color
    rw [h]
    rw [if_neg (by decide : ¬("hue_family" = "random")), if_pos rfl]
    by_cases hc : (colors.lookup label).getD [] = []
    · rw [if_pos hc]
      exact ⟨_, _, rfl⟩
    · rw [if_neg hc]
      exact ⟨_, _, rfl⟩

/-- `Node._get_instance_color` cannot raise under a validated scheme. -/
lemma get_instance_color_isOk (env : Env) (cfg : Config) (counts : CountsMap)
    (colors : ColorsMap) (rng : Rng) (label : String)
    (h : cfg.instance_color_scheme = "random" ∨ cfg.instance_color_scheme = "hue_family") :
    ∃ c counts1 colors1 rng1,
      get_instance_color env cfg counts colors rng label = .ok (c, counts1, colors1, rng1) := by
  simp only [get_instance_color]
  by_cases hgt : (counts.lookup label).getD 0 + 1 > ((colors.lookup label).getD []).length
  · obtain ⟨c, rng1, hok⟩ := get_new_instance_color_isOk env cfg
      (if (colors.lookup label).isSome then colors else colors ++ [(label, [])]) label rng h
    rw [if_pos hgt, hok]
    exact ⟨_, _, _, _, rfl⟩
  · rw [if_neg hgt]
    exact ⟨_, _, _, _, rfl⟩

/-- C9: with `contours.show` truthy and at least one detected instance,
standard-mask drawing raises a `TypeError` (the per-mask contour helper
is called with four positional arguments but defined with three), so it
never returns an image.  The scheme hypothesis holds for every
constructed node, since `Node.__init__` validates the configuration. -/
theorem standard_masks_contours_raise (env : Env) (cfg : Config) (colors : ColorsMap)
    (rng : Rng) (img : Img) (masks : List Mask) (labels : List String) (scores : List ℚ)
    (hshow : cfg.contours_show.truthy = true)
    (hscheme : cfg.instance_color_scheme = "random" ∨ cfg.instance_color_scheme = "hue_family")
    (hne : scores ≠ []) :
    draw_standard_masks env cfg colors rng img masks labels scores = .error PErr.typeError := by
  unfold draw_standard_masks
  have hlen : (List.insertionSort scoreLE (scoresWithIndexes scores)).length = scores.length := by
    rw [(List.perm_insertionSort scoreLE (scoresWithIndexes scores)).length_eq]
    simp [scoresWithIndexes]
  obtain ⟨p, rest, hs⟩ :
      ∃ p rest, List.insertionSort scoreLE (scoresWithIndexes scores) = p :: rest := by
    cases hsort : List.insertionSort scoreLE (scoresWithIndexes scores) with
    | nil =>
        rw [hsort] at hlen
        exact absurd (List.length_eq_zero.mp hlen.symm) hne
    | cons p rest => exact ⟨p, rest, rfl⟩
  rw [hs]
  obtain ⟨c, counts1, colors1, rng1, hok⟩ :=
    get_instance_color_isOk env cfg [] colors rng (labels.getD p.2 "") hscheme
  have hstep : paintStep env cfg img masks labels (img, [], colors, rng) p.2 =
      .error PErr.typeError := by
    unfold paintStep
    rw [hok]
    simp [hshow]
  cases p with
  | mk s i => simp only [paintLoop, hstep]

/-- C9 witness: a concrete one-instance invocation with contours enabled
raises the `TypeError`. -/
theorem standard_masks_contours_raise_witness :
    draw_standard_masks env0 cfgContours [] [] blackImg [fullMask] ["person"] [2/3] =
      .error PErr.typeError :=
  standard_masks_contours_raise env0 cfgContours [] [] blackImg [fullMask] ["person"] [2/3]
    rfl (Or.inr rfl) (by simp)

/-- C7: with zero detected instances and `standard_mask` enabled, `run`
does not fail and returns the input image unchanged under the key
`"img"`; in particular this holds for the all-black frame (`blackImg`
models the 28×28×3 all-black frame — images are pixel functions, so the
frame size plays no role). -/
theorem run_zero_instances_unchanged :
    validate_configs cfgStandard = some true ∧
    (∀ (env : Env) (colors : ColorsMap) (rng : Rng) (img : Img),
      node_run env cfgStandard colors rng img [] [] [] = .ok ([("img", img)], colors, rng)) ∧
    (∀ env : Env, node_run env cfgStandard [] [] blackImg [] [] [] =
      .ok ([("img", blackImg)], [], [])) :=
  ⟨by decide, fun _ _ _ _ => rfl, fun _ => rfl⟩

/-- C1 (code bug): a validated configuration with `standard_mask` and
contours enabled, on a pool with one detected instance, makes `run` raise
the contour-helper `TypeError` instead of returning a pool with key
`"img"` — even though the dispatch selects exactly the standard-mask
branch. -/
theorem run_contours_no_pool :
    validate_configs cfgContours = some true ∧
    selectAction cfgContours.effect = some RunAction.standardMask ∧
    node_run env0 cfgContours [] [] blackImg [fullMask] ["person"] [1/2] =
      .error PErr.typeError :=
  ⟨by decide, rfl, rfl⟩

/-- A configuration that passes validation with exactly one truthy effect
(`blur`) while a falsy non-`None` effect (`contrast: 0.0`) precedes it in
the mapping. -/
def cfgContrastZero : Config :=
  { instance_color_scheme := "hue_family"
    effect := [("standard_mask", PyVal.none), ("contrast", PyVal.float 0),
      ("brightness", PyVal.none), ("gamma_correction", PyVal.none),
      ("blur", PyVal.int 3), ("mosaic", PyVal.none)]
    effect_area := "objects"
    contours_show := PyVal.bool false
    contours_thickness := PyVal.int 3 }

/-- C10: validation counts only truthy effects, run dispatches on the
first non-`None` entry: `cfgContrastZero` passes validation on the
strength of `blur: 3`, yet `run` dispatches `contrast` with factor `0.0`
(blacking out the effect area) and never reaches `blur`. -/
theorem validation_dispatch_mismatch :
    validate_configs cfgContrastZero = some true ∧
    selectAction cfgContrastZero.effect = some (RunAction.applyEffect "contrast") ∧
    (∀ y x, convertScaleAbs ((dictGet cfgContrastZero.effect "contrast").getD PyVal.none).toQ 0
      blackImg y x = (0, 0, 0)) ∧
    fullImageWithEffect env0 cfgContrastZero "contrast" blackImg =
      some (convertScaleAbs ((dictGet cfgContrastZero.effect "contrast").getD PyVal.none).toQ 0
        blackImg) := by
  refine ⟨by decide, rfl, ?_, rfl⟩
  intro y x
  norm_num [convertScaleAbs, saturateCastU8, cvRound, pixMap, blackImg]

/-- `cvRound` is the identity on integers. -/
lemma cvRound_intCast (n : ℤ) : cvRound (n : ℚ) = n := by
  unfold cvRound
  rw [Int.floor_intCast]
  simp

/-- `saturate_cast<uchar>` of an integer clamps it into `[0, 255]`. -/
lemma saturateCastU8_intCast (n : ℤ) :
    saturateCastU8 (n : ℚ) = (min 255 (max 0 n)).toNat := by
  unfold saturateCastU8
  rw [cvRound_intCast]

/-- The brightness formula the spec states, word for word:
`output = clamp(image + β)` into `[0, 255]` (no absolute value).  This is
the comparison definition for claim C2, not a translation of the code. -/
def brightnessSpec (beta : ℤ) (img : Img) : Img :=
  fun y x => pixMap (fun v => (min 255 (max 0 ((v : ℤ) + beta))).toNat) (img y x)

/-- C2 counterexample: at β = −100 on a black pixel the code produces
channel value 100 (`convertScaleAbs` takes `|v + β|` before clamping)
while the claimed `clamp(v + β)` is 0. -/
theorem brightness_claim_false :
    convertScaleAbs 1 (-100) blackImg 0 0 = (100, 100, 100) ∧
    brightnessSpec (-100) blackImg 0 0 = (0, 0, 0) ∧
    convertScaleAbs 1 (-100) blackImg 0 0 ≠ brightnessSpec (-100) blackImg 0 0 := by
  have h1 : convertScaleAbs 1 (-100) blackImg 0 0 = (100, 100, 100) := by
    norm_num [convertScaleAbs, saturateCastU8, cvRound, pixMap, blackImg]
    decide
  have h2 : brightnessSpec (-100) blackImg 0 0 = (0, 0, 0) := by decide
  refine ⟨h1, h2, ?_⟩
  rw [h1, h2]
  decide

/-- C2 (amended): for every image and configured brightness offset
β ∈ [−100, 100], the brightness effect transforms every pixel channel to
`min(255, |v + β|)` (absolute value then clamp — `cv2.convertScaleAbs`),
with contrast factor α = 1. -/
theorem brightness_effect_formula (env : Env) (cfg : Config) (img : Img) (beta : ℤ)
    (hb : dictGet cfg.effect "brightness" = some (PyVal.int beta))
    (hlo : -100 ≤ beta) (hhi : beta ≤ 100) :
    fullImageWithEffect env cfg "brightness" img = some (convertScaleAbs 1 (beta : ℚ) img) ∧
    ∀ y x, convertScaleAbs 1 (beta : ℚ) img y x =
      pixMap (fun v => min 255 ((v : ℤ) + beta).natAbs) (img y x) := by
  constructor
  · unfold fullImageWithEffect
    rw [if_neg (by decide : ¬("brightness" = "contrast")), if_pos rfl, hb]
    rfl
  · intro y x
    unfold convertScaleAbs
    unfold pixMap
    have key : ∀ v : ℕ, saturateCastU8 |(v : ℚ) * 1 + (beta : ℚ)| =
        min 255 ((v : ℤ) + beta).natAbs := by
      intro v
      have hcast : (v : ℚ) * 1 + (beta : ℚ) = (((v : ℤ) + beta : ℤ) : ℚ) := by
        push_cast
        ring
      have habs : |(v : ℚ) * 1 + (beta : ℚ)| = ((((v : ℤ) + beta).natAbs : ℤ) : ℚ) := by
        rw [hcast, ← Int.cast_abs, Int.abs_eq_natAbs]
      rw [habs, saturateCastU8_intCast]
      have hmax : max 0 (((v : ℤ) + beta).natAbs : ℤ) = (((v : ℤ) + beta).natAbs : ℤ) :=
        max_eq_right (Int.natCast_nonneg _)
      rw [hmax]
      omega
    simp only [key]

/-- A validated configuration whose single truthy effect is
`brightness: 17`. -/
def cfgBrightness : Config :=
  { instance_color_scheme := "hue_family"
    effect := [("standard_mask", PyVal.none), ("contrast", PyVal.none),
      ("brightness", PyVal.int 17), ("gamma_correction", PyVal.none),
      ("blur", PyVal.none), ("mosaic", PyVal.none)]
    effect_area := "objects"
    contours_show := PyVal.bool false
    contours_thickness := PyVal.int 3 }

/-- C2 witness: the amended formula applied at β = 17 on the black image. -/
theorem brightness_effect_formula_witness :
    fullImageWithEffect env0 cfgBrightness "brightness" blackImg =
      some (convertScaleAbs 1 ((17 : ℤ) : ℚ) blackImg) ∧
    ∀ y x, convertScaleAbs 1 ((17 : ℤ) : ℚ) blackImg y x =
      pixMap (fun v => min 255 ((v : ℤ) + 17).natAbs) (blackImg y x) :=
  brightness_effect_formula env0 cfgBrightness blackImg 17 rfl (by decide) (by decide)

/-- `Node._validate_configs` as a single conjunction, given that all five
numeric effect keys are present (no `KeyError`). -/
lemma validate_configs_eq (cfg : Config) (vc vb vg vbl vm : PyVal)
    (hvc : dictGet cfg.effect "contrast" = some vc)
    (hvb : dictGet cfg.effect "brightness" = some vb)
    (hvg : dictGet cfg.effect "gamma_correction" = some vg)
    (hvbl : dictGet cfg.effect "blur" = some vbl)
    (hvm : dictGet cfg.effect "mosaic" = some vm) :
    validate_configs cfg = some
      (check_valid_choice cfg.instance_color_scheme ["random", "hue_family"] &&
       cfg.effect.all (fun p => recognizedEffects.contains p.1) &&
       decide ((cfg.effect.filter (fun p => p.2.truthy)).length = 1) &&
       check_valid_choice cfg.effect_area ["objects", "background"] &&
       (check_type vc PyVal.isFloat && check_number_range vc 0 (some 3) &&
        check_type vb PyVal.isInt && check_number_range vb (-100) (some 100) &&
        check_type vg PyVal.isFloat && check_number_range vg 0 Option.none &&
        check_type vbl PyVal.isInt && check_number_range vbl 1 Option.none &&
        check_type vm PyVal.isInt && check_number_range vm 1 Option.none &&
        check_type cfg.contours_show PyVal.isBool &&
        check_type cfg.contours_thickness PyVal.isInt &&
        check_number_range cfg.contours_thickness 1 Option.none)) := by
  unfold validate_configs
  rw [hvc, hvb, hvg, hvbl, hvm]
  split_ifs with g1 g2 g3 g4
  · rw [Bool.not_eq_true'] at g1
    rw [g1, Bool.false_and, Bool.false_and, Bool.false_and, Bool.false_and]
  · rw [Bool.not_eq_true'] at g2
    rw [g2, Bool.and_false, Bool.false_and, Bool.false_and, Bool.false_and]
  · have : decide ((cfg.effect.filter (fun p => p.2.truthy)).length = 1) = false :=
      decide_eq_false g3
    rw [this, Bool.and_false, Bool.false_and, Bool.false_and]
  · rw [Bool.not_eq_true'] at g4
    rw [g4, Bool.and_false, Bool.false_and]
  · have a1 : check_valid_choice cfg.instance_color_scheme ["random", "hue_family"] = true := by
      revert g1
      cases check_valid_choice cfg.instance_color_scheme ["random", "hue_family"] <;> simp
    have a2 : cfg.effect.all (fun p => recognizedEffects.contains p.1) = true := by
      revert g2
      cases cfg.effect.all (fun p => recognizedEffects.contains p.1) <;> simp
    have a4 : check_valid_choice cfg.effect_area ["objects", "background"] = true := by
      revert g4
      cases check_valid_choice cfg.effect_area ["objects", "background"] <;> simp
    have a3 : decide ((cfg.effect.filter (fun p => p.2.truthy)).length = 1) = true :=
      decide_eq_true (not_not.mp g3)
    rw [a1, a2, a3, a4, Bool.true_and, Bool.true_and, Bool.true_and, Bool.true_and]

/-- The construction-failure condition exactly as claim C6 enumerates it:
invalid enum choice, unrecognized effect key, truthy-effect count other
than one, numeric effect parameter (or contour thickness) of the wrong
type or out of range.  This is the comparison definition for claim C6,
not a translation of the code. -/
def claimInvalidC6 (cfg : Config) : Bool :=
  !check_valid_choice cfg.instance_color_scheme ["random", "hue_family"] ||
  !check_valid_choice cfg.effect_area ["objects", "background"] ||
  !cfg.effect.all (fun p => recognizedEffects.contains p.1) ||
  !decide ((cfg.effect.filter (fun p => p.2.truthy)).length = 1) ||
  !(check_type ((dictGet cfg.effect "contrast").getD PyVal.none) PyVal.isFloat &&
    check_number_range ((dictGet cfg.effect "contrast").getD PyVal.none) 0 (some 3) &&
    check_type ((dictGet cfg.effect "brightness").getD PyVal.none) PyVal.isInt &&
    check_number_range ((dictGet cfg.effect "brightness").getD PyVal.none) (-100) (some 100) &&
    check_type ((dictGet cfg.effect "gamma_correction").getD PyVal.none) PyVal.isFloat &&
    check_number_range ((dictGet cfg.effect "gamma_correction").getD PyVal.none) 0 Option.none &&
    check_type ((dictGet cfg.effect "blur").getD PyVal.none) PyVal.isInt &&
    check_number_range ((dictGet cfg.effect "blur").getD PyVal.none) 1 Option.none &&
    check_type ((dictGet cfg.effect "mosaic").getD PyVal.none) PyVal.isInt &&
    check_number_range ((dictGet cfg.effect "mosaic").getD PyVal.none) 1 Option.none &&
    check_type cfg.contours_thickness PyVal.isInt &&
    check_number_range cfg.contours_thickness 1 Option.none)

/-- A configuration that is valid by claim C6's enumeration but is
rejected by the code: `contours.show` set to the integer `1`. -/
def cfgShowInt : Config :=
  { instance_color_scheme := "hue_family"
    effect := [("standard_mask", PyVal.bool true), ("contrast", PyVal.none),
      ("brightness", PyVal.none), ("gamma_correction", PyVal.none),
      ("blur", PyVal.none), ("mosaic", PyVal.none)]
    effect_area := "objects"
    contours_show := PyVal.int 1
    contours_thickness := PyVal.int 3 }

/-- C6 counterexample: `cfgShowInt` satisfies none of the claim's
invalidity conditions, yet construction raises (`_check_type` on
`contours.show` demands `bool`). -/
theorem validation_claim_gap :
    claimInvalidC6 cfgShowInt = false ∧ validate_configs cfgShowInt = some false := by
  decide

/-- C6 (amended): when the five numeric effect keys are present,
construction raises a `ValueError` if and only if the claim's enumerated
conditions hold **or** `contours.show` is non-`None` of a non-`bool`
type; a configuration violating neither constructs without error. -/
theorem validation_iff_amended (cfg : Config) (vc vb vg vbl vm : PyVal)
    (hvc : dictGet cfg.effect "contrast" = some vc)
    (hvb : dictGet cfg.effect "brightness" = some vb)
    (hvg : dictGet cfg.effect "gamma_correction" = some vg)
    (hvbl : dictGet cfg.effect "blur" = some vbl)
    (hvm : dictGet cfg.effect "mosaic" = some vm) :
    validate_configs cfg = some false ↔
      (claimInvalidC6 cfg || !check_type cfg.contours_show PyVal.isBool) = true := by
  rw [validate_configs_eq cfg vc vb vg vbl vm hvc hvb hvg hvbl hvm]
  unfold claimInvalidC6
  rw [hvc, hvb, hvg, hvbl, hvm]
  simp only [Option.getD_some, Option.some.injEq, Bool.and_eq_false_iff,
    Bool.or_eq_true, Bool.not_eq_true']
  tauto

/-- C6 witness: the amended equivalence at a concrete configuration. -/
theorem validation_iff_amended_witness :
    validate_configs cfgStandard = some false ↔
      (claimInvalidC6 cfgStandard || !check_type cfgStandard.contours_show PyVal.isBool) = true :=
  validation_iff_amended cfgStandard PyVal.none PyVal.none PyVal.none PyVal.none PyVal.none
    rfl rfl rfl rfl rfl

/-- The combined mask only takes the values 0 and 1. -/
lemma combinedMask_le_one (masks : List Mask) (y x : ℕ) :
    combinedMask masks y x = 0 ∨ combinedMask masks y x = 1 := by
  unfold combinedMask
  induction masks using List.reverseRecOn with
  | nil => exact Or.inl rfl
  | append_singleton ms m ih =>
      rw [List.foldl_append, List.foldl_cons, List.foldl_nil]
      by_cases hm : m y x ≠ 0
      · rw [if_pos hm]
        exact Or.inr rfl
      · rw [if_neg hm]
        exact ih

/-- `1 - mask` flips the binary values. -/
lemma maskInvFn_eq (m : Mask) (y x : ℕ) :
    (m y x = 0 → maskInvFn m y x = 1) ∧ (m y x = 1 → maskInvFn m y x = 0) := by
  constructor <;> intro h <;> simp [maskInvFn, h]

/-- C4: for every environment (hence every effect transform), image with
8-bit pixels, mask list and recognized non-standard effect, the `objects`
and `background` runs of `Node._mask_apply_effect` select complementary
pixel regions: the two selected regions partition the frame, and each
output equals the original image pixel-for-pixel outside its selected
region (contours disabled, their default). -/
theorem mask_apply_effect_complement (env : Env) (cfg : Config) (e : String)
    (img : Img) (masks : List Mask) (E : Img)
    (hshow : cfg.contours_show.truthy = false)
    (hbin : ∀ m ∈ masks, ∀ y x, m y x ≤ 1)
    (himg : ∀ y x, (img y x).1 ≤ 255 ∧ (img y x).2.1 ≤ 255 ∧ (img y x).2.2 ≤ 255)
    (hE : fullImageWithEffect env cfg e img = some E) :
    ∃ outO outB,
      mask_apply_effect env { cfg with effect_area := "objects" } e img masks = .ok outO ∧
      mask_apply_effect env { cfg with effect_area := "background" } e img masks = .ok outB ∧
      ∀ y x,
        (combinedMask masks y x = 1 ∨ maskInvFn (combinedMask masks) y x = 1) ∧
        ¬(combinedMask masks y x = 1 ∧ maskInvFn (combinedMask masks) y x = 1) ∧
        (combinedMask masks y x = 0 → outO y x = img y x) ∧
        (combinedMask masks y x = 1 → outB y x = img y x) := by
  have hEO : fullImageWithEffect env { cfg with effect_area := "objects" } e img = some E := hE
  have hEB : fullImageWithEffect env { cfg with effect_area := "background" } e img = some E :=
    hE
  refine ⟨cvAdd (bitwiseAndMask img (maskInvFn (combinedMask masks)))
      (bitwiseAndMask E (combinedMask masks)),
    cvAdd (bitwiseAndMask img (maskInvFn (maskInvFn (combinedMask masks))))
      (bitwiseAndMask E (maskInvFn (combinedMask masks))), ?_, ?_, ?_⟩
  · unfold mask_apply_effect
    rw [hEO]
    simp only [hshow, Bool.false_eq_true, if_false]
    rfl
  · unfold mask_apply_effect
    rw [hEB]
    simp only [hshow, Bool.false_eq_true, if_false]
    rfl
  · intro y x
    obtain ⟨h1, h2, h3⟩ := himg y x
    rcases combinedMask_le_one masks y x with hc | hc
    · have hinv := (maskInvFn_eq (combinedMask masks) y x).1 hc
      refine ⟨Or.inr hinv, by simp [hc], fun _ => ?_,
        fun hone => absurd (hc.symm.trans hone) (by decide)⟩
      unfold cvAdd bitwiseAndMask
      rw [hc, hinv]
      simp only [if_pos (by decide : (1 : ℕ) ≠ 0), ne_eq, not_true_eq_false, if_false,
        reduceCtorEq, not_false_eq_true, if_true]
      unfold pixZip
      simp only [if_neg (by simp : ¬¬((0 : ℕ) = 0))]
      cases himgp : img y x with
      | mk b gr =>
          rw [himgp] at h1 h2 h3
          cases gr with
          | mk g r => simp_all [Nat.min_def]
    · have hinv := (maskInvFn_eq (combinedMask masks) y x).2 hc
      have hinv2 : maskInvFn (maskInvFn (combinedMask masks)) y x = 1 :=
        (maskInvFn_eq (maskInvFn (combinedMask masks)) y x).1 hinv
      refine ⟨Or.inl hc, by simp [hinv], fun h0 => absurd (h0.symm.trans hc) (by decide),
        fun _ => ?_⟩
      unfold cvAdd bitwiseAndMask
      rw [hinv, hinv2]
      unfold pixZip
      simp only [if_pos (by decide : (1 : ℕ) ≠ 0), ne_eq, not_true_eq_false, if_false,
        reduceCtorEq, not_false_eq_true, if_true]
      cases himgp : img y x with
      | mk b gr =>
          rw [himgp] at h1 h2 h3
          cases gr with
          | mk g r => simp_all [Nat.min_def]

/-- A constant test image with small channel values. -/
def imgC7 : Img := fun _ _ => (7, 8, 9)

/-- C4 witness: the complement law applied to the brightness effect on a
constant image with one full-frame mask. -/
theorem mask_apply_effect_complement_witness :
    ∃ outO outB,
      mask_apply_effect env0 { cfgBrightness with effect_area := "objects" }
        "brightness" imgC7 [fullMask] = .ok outO ∧
      mask_apply_effect env0 { cfgBrightness with effect_area := "background" }
        "brightness" imgC7 [fullMask] = .ok outB ∧
      ∀ y x,
        (combinedMask [fullMask] y x = 1 ∨ maskInvFn (combinedMask [fullMask]) y x = 1) ∧
        ¬(combinedMask [fullMask] y x = 1 ∧ maskInvFn (combinedMask [fullMask]) y x = 1) ∧
        (combinedMask [fullMask] y x = 0 → outO y x = imgC7 y x) ∧
        (combinedMask [fullMask] y x = 1 → outB y x = imgC7 y x) :=
  mask_apply_effect_complement env0 cfgBrightness "brightness" imgC7 [fullMask]
    (convertScaleAbs 1 ((dictGet cfgBrightness.effect "brightness").getD PyVal.none).toQ imgC7)
    rfl
    (by
      intro m hm y x
      rw [List.mem_singleton] at hm
      subst hm
      exact le_refl 1)
    (by
      intro y x
      refine ⟨?_, ?_, ?_⟩ <;> norm_num [imgC7])
    rfl

/-- C8: with the two test nodes (first outputs `test_output_1`; second
consumes it and outputs `test_output_2` and `pipeline_end`), one runner
invocation terminates after a single step — the sentinel is truthy — and
the pool then contains all three keys with the values asserted by
`TestRunner.test_run_nodes`. -/
theorem runner_two_nodes (fuel : ℕ) :
    runnerLoop [testInputNode, testNodeEnd] (fuel + 1) emptyPool =
      (runOnce [testInputNode, testNodeEnd] emptyPool, true) ∧
    runOnce [testInputNode, testNodeEnd] emptyPool "test_output_1" = some "test_output_0" ∧
    runOnce [testInputNode, testNodeEnd] emptyPool "test_output_2" = some "test_output_0" ∧
    runOnce [testInputNode, testNodeEnd] emptyPool "pipeline_end" = some "test_output_1" :=
  ⟨rfl, rfl, rfl, rfl⟩

/-- Below the pre-clamp threshold (`s + 19.5 < 100`), the stored
saturation jumps by 119 (the `% 256` is inert and the `+ 100` clamp
fires). -/
lemma satStepInt_low (s : ℕ) (h : s ≤ 80) : satStepInt s = s + 119 := by
  have hcast : (s : ℚ) ≤ 80 := by exact_mod_cast h
  have hmod : qmod ((s : ℚ) + (256 - SATURATION_MINIMUM) / SATURATION_STEPS) 256 =
      (s : ℚ) + 39/2 := by
    unfold qmod SATURATION_MINIMUM SATURATION_STEPS
    have hfl : ⌊((s : ℚ) + (256 - (100 : ℕ)) / (8 : ℕ)) / 256⌋ = 0 := by
      rw [Int.floor_eq_iff]
      push_cast
      constructor <;> [positivity; (rw [div_lt_iff (by norm_num : (0:ℚ) < 256)]; linarith)]
    push_cast at hfl ⊢
    rw [hfl]
    ring
  unfold satStepInt satStep
  rw [hmod, if_pos (by unfold SATURATION_MINIMUM; push_cast; linarith)]
  have : (s : ℚ) + 39/2 + SATURATION_MINIMUM = ((s + 119 : ℕ) : ℚ) + 1/2 := by
    unfold SATURATION_MINIMUM
    push_cast
    ring
  rw [this]
  rw [show ((s + 119 : ℕ) : ℚ) = (((s + 119 : ℕ) : ℤ) : ℚ) by push_cast; ring]
  rw [Int.floor_int_add]
  norm_num
  omega

/-- In the middle band the stored saturation advances by exactly 19
(the exact step 19.5 is truncated by `int(...)`). -/
lemma satStepInt_mid (s : ℕ) (h1 : 81 ≤ s) (h2 : s ≤ 236) : satStepInt s = s + 19 := by
  have hc1 : (81 : ℚ) ≤ (s : ℚ) := by exact_mod_cast h1
  have hc2 : (s : ℚ) ≤ 236 := by exact_mod_cast h2
  have hmod : qmod ((s : ℚ) + (256 - SATURATION_MINIMUM) / SATURATION_STEPS) 256 =
      (s : ℚ) + 39/2 := by
    unfold qmod SATURATION_MINIMUM SATURATION_STEPS
    have hfl : ⌊((s : ℚ) + (256 - (100 : ℕ)) / (8 : ℕ)) / 256⌋ = 0 := by
      rw [Int.floor_eq_iff]
      push_cast
      constructor <;> [positivity; (rw [div_lt_iff (by norm_num : (0:ℚ) < 256)]; linarith)]
    push_cast at hfl ⊢
    rw [hfl]
    ring
  unfold satStepInt satStep
  rw [hmod, if_neg (by unfold SATURATION_MINIMUM; push_cast; intro hlt; linarith)]
  have : (s : ℚ) + 39/2 = ((s + 19 : ℕ) : ℚ) + 1/2 := by
    push_cast
    ring
  rw [this]
  rw [show ((s + 19 : ℕ) : ℚ) = (((s + 19 : ℕ) : ℤ) : ℚ) by push_cast; ring]
  rw [Int.floor_int_add]
  norm_num
  omega

/-- Past the wrap point the stored saturation falls back to `s - 137`
(wrap modulo 256 and the `+ 100` clamp combined, then truncation). -/
lemma satStepInt_high (s : ℕ) (h1 : 237 ≤ s) (h2 : s ≤ 255) : satStepInt s = s - 137 := by
  have hc1 : (237 : ℚ) ≤ (s : ℚ) := by exact_mod_cast h1
  have hc2 : (s : ℚ) ≤ 255 := by exact_mod_cast h2
  have hmod : qmod ((s : ℚ) + (256 - SATURATION_MINIMUM) / SATURATION_STEPS) 256 =
      (s : ℚ) - 473/2 := by
    unfold qmod SATURATION_MINIMUM SATURATION_STEPS
    have hfl : ⌊((s : ℚ) + (256 - (100 : ℕ)) / (8 : ℕ)) / 256⌋ = 1 := by
      rw [Int.floor_eq_iff]
      push_cast
      constructor
      · rw [le_div_iff (by norm_num : (0:ℚ) < 256)]
        linarith
      · rw [div_lt_iff (by norm_num : (0:ℚ) < 256)]
        linarith
    push_cast at hfl ⊢
    rw [hfl]
    ring
  unfold satStepInt satStep
  rw [hmod, if_pos (by unfold SATURATION_MINIMUM; push_cast; linarith)]
  have hfl2 : ⌊(s : ℚ) - 473/2 + SATURATION_MINIMUM⌋ = (s : ℤ) - 137 := by
    unfold SATURATION_MINIMUM
    rw [Int.floor_eq_iff]
    push_cast
    constructor <;> linarith
  rw [hfl2]
  omega

/-- C3 (amended): under `hue_family`, the first assignment for a label is
the preset class color (default for an unknown label); each subsequent
new assignment converts the previous color to HSV, steps the saturation
by exactly (256−100)/8 = 19.5 modulo 256 (adding back 100 whenever the
result falls below the minimum, wrap or not), **truncates it to an
integer**, and converts back with the hue and value components passed
through unchanged.  The truncation makes the stored saturation advance in
integer steps: +119 for s ≤ 80, +19 for 81 ≤ s ≤ 236, −137 for s ≥ 237 —
never by exactly 19.5. -/
theorem hue_family_saturation_step (env : Env) (cfg : Config) (colors : ColorsMap)
    (label : String) (rng : Rng)
    (hscheme : cfg.instance_color_scheme = "hue_family") :
    ((colors.lookup label).getD [] = [] →
      get_new_instance_color env cfg colors label rng =
        .ok ((env.classColors.lookup label).getD env.defaultClassColor, rng)) ∧
    (∀ lst, (colors.lookup label).getD [] = lst → lst ≠ [] →
      get_new_instance_color env cfg colors label rng =
        .ok (hsv_to_bgr ((bgr_to_hsv (lst.getLastD (0, 0, 0))).1,
          satStepInt (bgr_to_hsv (lst.getLastD (0, 0, 0))).2.1,
          (bgr_to_hsv (lst.getLastD (0, 0, 0))).2.2), rng)) ∧
    (∀ s : ℕ, (s ≤ 80 → satStepInt s = s + 119) ∧
      (81 ≤ s → s ≤ 236 → satStepInt s = s + 19) ∧
      (237 ≤ s → s ≤ 255 → satStepInt s = s - 137)) := by
  refine ⟨?_, ?_, fun s => ⟨satStepInt_low s, satStepInt_mid s, satStepInt_high s⟩⟩
  · intro hempty
    unfold get_new_instance_color
    rw [hscheme]
    rw [if_neg (by decide : ¬("hue_family" = "random")), if_pos rfl, if_pos hempty]
  · intro lst hlst hne
    unfold get_new_instance_color
    rw [hscheme]
    rw [if_neg (by decide : ¬("hue_family" = "random")), if_pos rfl, hlst, if_neg hne]

/-- C3 witness: the amended step equation on a state whose last "person"
color is BGR (155, 155, 255) (saturation 100). -/
theorem hue_family_saturation_step_witness :
    ((([("person", [((155 : ℕ), (155 : ℕ), (255 : ℕ))])] : ColorsMap).lookup "person").getD []
        = [] →
      get_new_instance_color env0 cfgStandard [("person", [(155, 155, 255)])] "person" [] =
        .ok ((env0.classColors.lookup "person").getD env0.defaultClassColor, [])) ∧
    (∀ lst, (([("person", [((155 : ℕ), (155 : ℕ), (255 : ℕ))])] :
        ColorsMap).lookup "person").getD [] = lst → lst ≠ [] →
      get_new_instance_color env0 cfgStandard [("person", [(155, 155, 255)])] "person" [] =
        .ok (hsv_to_bgr ((bgr_to_hsv (lst.getLastD (0, 0, 0))).1,
          satStepInt (bgr_to_hsv (lst.getLastD (0, 0, 0))).2.1,
          (bgr_to_hsv (lst.getLastD (0, 0, 0))).2.2), [])) ∧
    (∀ s : ℕ, (s ≤ 80 → satStepInt s = s + 119) ∧
      (81 ≤ s → s ≤ 236 → satStepInt s = s + 19) ∧
      (237 ≤ s → s ≤ 255 → satStepInt s = s - 137)) :=
  hue_family_saturation_step env0 cfgStandard [("person", [(155, 155, 255)])] "person" [] rfl

/-- C3 counterexample: from previous assignment BGR (155, 155, 255)
(saturation 100) the next assignment is BGR (136, 136, 255) with
saturation 119 — not 100 + 19.5, which is no integer at all.  The exact
rational evaluations below coincide with the source's IEEE-double
results. -/
theorem hue_family_step_claim_false :
    get_new_instance_color env0 cfgStandard [("person", [(155, 155, 255)])] "person" [] =
      .ok ((136, 136, 255), []) ∧
    (bgr_to_hsv (155, 155, 255)).2.1 = 100 ∧
    (bgr_to_hsv (136, 136, 255)).2.1 = 119 ∧
    ((119 : ℚ) ≠ 100 + (256 - 100) / 8) := by
  have h1 : bgr_to_hsv (155, 155, 255) = (0, 100, 255) := by
    norm_num [bgr_to_hsv, rgb_to_hsv, qmod, min_def, max_def]
    decide
  have h2 : satStepInt 100 = 119 := satStepInt_mid 100 (by norm_num) (by norm_num)
  have h3 : hsv_to_bgr (0, 119, 255) = (136, 136, 255) := by
    norm_num [hsv_to_bgr, hsv_to_rgb]
    decide
  have h4 : bgr_to_hsv (136, 136, 255) = (0, 119, 255) := by
    norm_num [bgr_to_hsv, rgb_to_hsv, qmod, min_def, max_def]
    decide
  refine ⟨?_, by rw [h1], by rw [h4], by norm_num⟩
  unfold get_new_instance_color
  rw [show cfgStandard.instance_color_scheme = "hue_family" from rfl]
  rw [if_neg (by decide : ¬("hue_family" = "random")), if_pos rfl]
  rw [if_neg (by decide :
    ¬((([("person", [((155 : ℕ), (155 : ℕ), (255 : ℕ))])] :
      ColorsMap).lookup "person").getD [] = []))]
  rw [show (([("person", [((155 : ℕ), (155 : ℕ), (255 : ℕ))])] :
      ColorsMap).lookup "person").getD [] = [(155, 155, 255)] from rfl]
  rw [show ([((155 : ℕ), (155 : ℕ), (255 : ℕ))].getLastD (0, 0, 0)) = (155, 155, 255) from rfl]
  dsimp only
  rw [h1]
  dsimp only
  rw [h2, h3]

/-- A detection triple: (mask, label, score). -/
abbrev Det := Mask × String × ℚ

/-- The detection triple a `(score, index)` pair denotes, through exactly
the array accesses the painting loop performs. -/
def detTriple (masks : List Mask) (labels : List String) (p : ℚ × ℕ) : Det :=
  (masks.getD p.2 (fun _ _ => 0), labels.getD p.2 "", p.1)

/-- The index-aligned list of detection triples of a `(masks, labels,
scores)` input. -/
def tripsOf (masks : List Mask) (labels : List String) (scores : List ℚ) : List Det :=
  (scoresWithIndexes scores).map (detTriple masks labels)

/-- Ascending score order on detection triples. -/
def detLE (a b : Det) : Prop := a.2.2 ≤ b.2.2

/-- The score projection of `tripsOf` returns the score array. -/
lemma tripsOf_map_score (masks : List Mask) (labels : List String) (scores : List ℚ) :
    (tripsOf masks labels scores).map (fun d => d.2.2) = scores := by
  unfold tripsOf scoresWithIndexes
  rw [List.map_map, List.map_map]
  apply List.ext_getElem
  · simp
  · intro i h1 h2
    simp only [List.getElem_map, List.getElem_range, Function.comp_apply, detTriple]
    exact List.getD_eq_getElem scores 0 h2

/-- The painting loop depends on its `(score, index)` pairs only through
the detection triples they denote. -/
lemma paintLoop_congr (env : Env) (cfg : Config) (image : Img)
    (masks1 masks2 : List Mask) (labels1 labels2 : List String) :
    ∀ (l1 l2 : List (ℚ × ℕ)) (st : Img × CountsMap × ColorsMap × Rng),
      l1.map (detTriple masks1 labels1) = l2.map (detTriple masks2 labels2) →
      paintLoop env cfg image masks1 labels1 st l1 =
        paintLoop env cfg image masks2 labels2 st l2 := by
  intro l1
  induction l1 with
  | nil =>
      intro l2 st h
      cases l2 with
      | nil => rfl
      | cons q t2 => simp at h
  | cons p t1 ih =>
      intro l2 st h
      cases l2 with
      | nil => simp at h
      | cons q t2 =>
          simp only [List.map_cons, List.cons.injEq] at h
          obtain ⟨hh, ht⟩ := h
          have hmask : masks1.getD p.2 (fun _ _ => 0) = masks2.getD q.2 (fun _ _ => 0) :=
            congrArg Prod.fst hh
          have hlabel : labels1.getD p.2 "" = labels2.getD q.2 "" :=
            congrArg (fun d => d.2.1) hh
          have hstep : paintStep env cfg image masks1 labels1 st p.2 =
              paintStep env cfg image masks2 labels2 st q.2 := by
            unfold paintStep
            rw [hmask, hlabel]
          cases p with
          | mk ps pi =>
              cases q with
              | mk qs qi =>
                  simp only [paintLoop]
                  rw [hstep]
                  cases hres : paintStep env cfg image masks2 labels2 st qi with
                  | error e => rfl
                  | ok st1 => exact ih t2 st1 ht

/-- Two lists that are permutations of each other, both weakly sorted by
score, with no duplicate score, are equal. -/
lemma sorted_perm_nodup_eq (l1 l2 : List Det) (hperm : List.Perm l1 l2)
    (hs1 : l1.Pairwise detLE) (hs2 : l2.Pairwise detLE)
    (hnd : (l1.map (fun d => d.2.2)).Nodup) : l1 = l2 := by
  have hnd2 : (l2.map (fun d => d.2.2)).Nodup := ((hperm.map _).nodup_iff).mp hnd
  have hne1 : l1.Pairwise (fun a b : Det => a.2.2 ≠ b.2.2) := List.pairwise_map.mp hnd
  have hne2 : l2.Pairwise (fun a b : Det => a.2.2 ≠ b.2.2) := List.pairwise_map.mp hnd2
  haveI : IsAntisymm Det (fun a b => a.2.2 < b.2.2 ∨ a = b) := by
    constructor
    intro a b hab hba
    rcases hab with hab | hab
    · rcases hba with hba | hba
      · exact absurd hab (lt_asymm hba)
      · exact hba.symm
    · exact hab
  refine List.eq_of_perm_of_sorted (r := fun a b : Det => a.2.2 < b.2.2 ∨ a = b) hperm ?_ ?_
  · exact (hs1.and hne1).imp (fun h => Or.inl (lt_of_le_of_ne h.1 h.2))
  · exact (hs2.and hne2).imp (fun h => Or.inl (lt_of_le_of_ne h.1 h.2))

/-- C5: standard-mask compositing paints in ascending score order, so any
simultaneous permutation of the three index-aligned input arrays — with
pairwise-distinct scores — yields, from the same color-assignment state,
exactly the same outcome (image, updated color state, and random
stream). -/
theorem draw_standard_masks_order_invariant (env : Env) (cfg : Config)
    (colors : ColorsMap) (rng : Rng) (image : Img)
    (masks1 masks2 : List Mask) (labels1 labels2 : List String)
    (scores1 scores2 : List ℚ)
    (hnd : scores1.Nodup)
    (hperm : List.Perm (tripsOf masks2 labels2 scores2) (tripsOf masks1 labels1 scores1)) :
    draw_standard_masks env cfg colors rng image masks1 labels1 scores1 =
      draw_standard_masks env cfg colors rng image masks2 labels2 scores2 := by
  unfold draw_standard_masks
  have hmapeq :
      (List.insertionSort scoreLE (scoresWithIndexes scores1)).map (detTriple masks1 labels1) =
      (List.insertionSort scoreLE (scoresWithIndexes scores2)).map (detTriple masks2 labels2) := by
    apply sorted_perm_nodup_eq
    · exact ((List.perm_insertionSort scoreLE (scoresWithIndexes scores1)).map _).trans
        ((hperm.symm).trans
          ((List.perm_insertionSort scoreLE (scoresWithIndexes scores2)).map _).symm)
    · exact List.pairwise_map.mpr
        ((List.sorted_insertionSort scoreLE (scoresWithIndexes scores1)).imp (fun h => h))
    · exact List.pairwise_map.mpr
        ((List.sorted_insertionSort scoreLE (scoresWithIndexes scores2)).imp (fun h => h))
    · have hp := ((List.perm_insertionSort scoreLE (scoresWithIndexes scores1)).map
        (detTriple masks1 labels1)).map (fun d => d.2.2)
      have hr : List.map (fun d => d.2.2) (List.map (detTriple masks1 labels1)
          (scoresWithIndexes scores1)) = scores1 := tripsOf_map_score masks1 labels1 scores1
      rw [hr] at hp
      exact (hp.nodup_iff).mpr hnd
  dsimp only
  rw [paintLoop_congr env cfg image masks1 masks2 labels1 labels2 _ _ _ hmapeq]

/-- A mask selecting the first row. -/
def maskA : Mask := fun y _ => if y = 0 then 1 else 0

/-- A mask selecting the first column. -/
def maskB : Mask := fun _ x => if x = 0 then 1 else 0

/-- C5 witness: swapping two detections (distinct scores 1 and 2) leaves
the compositing outcome unchanged. -/
theorem draw_standard_masks_order_invariant_witness :
    draw_standard_masks env0 cfgStandard [] [] blackImg [maskA, maskB] ["a", "b"]
      [(1 : ℚ), 2] =
    draw_standard_masks env0 cfgStandard [] [] blackImg [maskB, maskA] ["b", "a"]
      [(2 : ℚ), 1] :=
  draw_standard_masks_order_invariant env0 cfgStandard [] [] blackImg
    [maskA, maskB] [maskB, maskA] ["a", "b"] ["b", "a"] [(1 : ℚ), 2] [(2 : ℚ), 1]
    (by norm_num)
    (List.Perm.swap _ _ _)
